import Mathlib

/-!
Verification of the allowlist application bot (src/bot.py) against its
specification.  The Python source is shallowly embedded: the relational
store becomes an explicit value (a list of application rows plus a finite
set of exempt user ids), timestamps become integers (seconds), and each
asynchronous handler becomes a pure function from the store and its
environment (role-grant success, DM success, audit-channel availability)
to the updated store together with a trace of the observable side effects
it performs, in program order.
-/

namespace AllowlistBot

/-- The `status` column of `new_applications` (bot.py line 156):
defaults to pending, written as approved or declined by the handlers. -/
inductive Status where
  | pending
  | approved
  | declined
  deriving DecidableEq, Repr

/-- One row of the `new_applications` table (bot.py lines 147-164). -/
structure AppRow where
  id : Nat
  user_id : Nat
  user_name : String
  steam_hex : String
  real_name : String
  character_name : String
  age : Int
  status : Status
  mod_reason : Option String
  moderator_id : Option Nat
  message_id : Option Nat
  created_at : Int
  updated_at : Int
  last_application : Option Int
  deriving DecidableEq, Repr

/-- The `new_applications` table. -/
abbrev Store := List AppRow

/-- Observable side effects of the handlers, in program order. -/
inductive Event where
  | readExempt (uid : Nat)
  | readLastApp (uid : Nat)
  | persistStatus (aid : Nat) (st : Status) (moderatorId : Option Nat) (reason : Option String)
  | fetchApp (aid : Nat)
  | notFoundMsg
  | clearControls
  | editReviewMessage (st : Status)
  | roleGrantAttempt (ok : Bool)
  | auditApproved (roleOk : Bool)
  | auditDeclined (reason : Option String)
  | dmApproved (roleOk : Bool) (ok : Bool)
  | dmDeclined (reason : Option String) (ok : Bool)
  | dmFailReport
  | reviewerAck (text : String)
  | sendModal
  | invalidAgeMsg
  | userDeclineMsg
  | ackSubmitted
  | sendToModChannel (aid : Nat)
  deriving DecidableEq, Repr

/-- `get_application` (bot.py lines 172-177):
SELECT * FROM new_applications WHERE id = $1. -/
def get_application (store : Store) (application_id : Nat) : Option AppRow :=
  store.find? (fun r => r.id == application_id)

/-- Helper for `get_user_last_application`: the row with the greatest
`created_at` among a list of rows (the first such row wins ties, which
the SQL leaves unspecified). -/
def latestRow (rows : List AppRow) : Option AppRow :=
  rows.foldl
    (fun acc r =>
      match acc with
      | none => some r
      | some b => if r.created_at > b.created_at then some r else some b)
    none

/-- `get_user_last_application` (bot.py lines 179-184):
SELECT last_application FROM new_applications WHERE user_id = $1
ORDER BY created_at DESC LIMIT 1; `fetchval` yields None both when no
row exists and when the column is NULL. -/
def get_user_last_application (store : Store) (user_id : Nat) : Option Int :=
  match latestRow (store.filter (fun r => r.user_id == user_id)) with
  | none => none
  | some r => r.last_application

/-- `is_cooldown_exempt` (bot.py lines 186-193): the static bypass list is
checked in memory first; only on a miss is the `cooldown_exempt` table
consulted (the trace records that store read). -/
def is_cooldown_exempt (bypass : List Nat) (exempt : Finset Nat) (user_id : Nat) :
    Bool × List Event :=
  if user_id ∈ bypass then (true, [])
  else (decide (user_id ∈ exempt), [Event.readExempt user_id])

/-- `add_cooldown_exempt` (bot.py lines 195-201):
INSERT ... ON CONFLICT (user_id) DO NOTHING over a primary-key table,
i.e. set insert. -/
def add_cooldown_exempt (s : Finset Nat) (user_id : Nat) : Finset Nat :=
  insert user_id s

/-- `remove_cooldown_exempt` (bot.py lines 203-209):
DELETE FROM cooldown_exempt WHERE user_id = $1, i.e. set erase. -/
def remove_cooldown_exempt (s : Finset Nat) (user_id : Nat) : Finset Nat :=
  s.erase user_id

/-- `create_application` (bot.py lines 211-224): INSERT with
status defaulting to pending and created_at, updated_at and
last_application all set to the current time; the SERIAL id is the
supplied fresh id. -/
def create_application (store : Store) (newId : Nat) (user_id : Nat)
    (user_name steam_hex real_name character_name : String) (age : Int)
    (now : Int) : Store :=
  store ++
    [{ id := newId, user_id := user_id, user_name := user_name,
       steam_hex := steam_hex, real_name := real_name,
       character_name := character_name, age := age, status := Status.pending,
       mod_reason := none, moderator_id := none, message_id := none,
       created_at := now, updated_at := now, last_application := some now }]

/-- `update_application_status` (bot.py lines 233-247): an unconditional
UPDATE of status, mod_reason, moderator_id and updated_at for every row
with the given id; the current status is never consulted. -/
def update_application_status (store : Store) (application_id : Nat)
    (status : Status) (moderator_id : Option Nat) (reason : Option String)
    (now : Int) : Store :=
  store.map (fun r =>
    if r.id = application_id then
      { r with status := status, mod_reason := reason,
               moderator_id := moderator_id, updated_at := now }
    else r)

/-- Outcome of the apply-button handler: either the cooldown denial
message or the application modal being shown. -/
inductive GateResult where
  | cooldownDenied
  | modalShown
  deriving DecidableEq, Repr

/-- `ApplicationButtonView.apply_button` (bot.py lines 513-532): if the
user is not exempt, read their most recent last_application and deny
when strictly less than the cooldown has elapsed; otherwise show the
application modal. -/
def apply_button (bypass : List Nat) (exempt : Finset Nat) (store : Store)
    (user_id : Nat) (now cooldown : Int) : GateResult × List Event :=
  if (is_cooldown_exempt bypass exempt user_id).1 then
    (GateResult.modalShown, (is_cooldown_exempt bypass exempt user_id).2)
  else
    match get_user_last_application store user_id with
    | some t =>
        if now - t < cooldown then
          (GateResult.cooldownDenied,
            (is_cooldown_exempt bypass exempt user_id).2 ++ [Event.readLastApp user_id])
        else
          (GateResult.modalShown,
            (is_cooldown_exempt bypass exempt user_id).2 ++ [Event.readLastApp user_id])
    | none =>
        (GateResult.modalShown,
          (is_cooldown_exempt bypass exempt user_id).2 ++ [Event.readLastApp user_id])

/-- Sample pending row used by concrete witnesses. -/
def sampleRow : AppRow :=
  { id := 1, user_id := 7, user_name := "u", steam_hex := "s", real_name := "r",
    character_name := "c", age := 21, status := Status.pending,
    mod_reason := none, moderator_id := none, message_id := none,
    created_at := 0, updated_at := 0, last_application := some 100 }

/-- C2: for an applicant neither in the bypass list nor in the exemption
set, the gate denies exactly when the most recent last-application time t
(most recent by created_at, regardless of status) satisfies
now - t < cooldown, allows when now - t >= cooldown (so in particular at
exactly cooldown elapsed), and allows when no prior application exists. -/
theorem C2_cooldown_gate_decision (bypass : List Nat) (exempt : Finset Nat)
    (store : Store) (uid : Nat) (now cooldown : Int)
    (hb : uid ∉ bypass) (he : uid ∉ exempt) :
    (get_user_last_application store uid = none →
      (apply_button bypass exempt store uid now cooldown).1 = GateResult.modalShown)
    ∧ ∀ t, get_user_last_application store uid = some t →
        (((apply_button bypass exempt store uid now cooldown).1 = GateResult.cooldownDenied
            ↔ now - t < cooldown)
          ∧ ((apply_button bypass exempt store uid now cooldown).1 = GateResult.modalShown
            ↔ cooldown ≤ now - t)) := by
  constructor
  · intro hnone
    simp [apply_button, is_cooldown_exempt, hb, he, hnone]
  · intro t ht
    by_cases hc : now - t < cooldown
    · simp [apply_button, is_cooldown_exempt, hb, he, ht, hc]
    · simp [apply_button, is_cooldown_exempt, hb, he, ht, hc]
      omega

/-- C2 witness: user 7 is not bypassed and not exempt, their latest
application is at time 100, and at time 200 with cooldown 100 (exactly
the cooldown elapsed) the gate allows. -/
theorem C2_cooldown_gate_decision_witness :
    (apply_button [1] {2} [sampleRow] 7 200 100).1 = GateResult.modalShown :=
  (((C2_cooldown_gate_decision [1] {2} [sampleRow] 7 200 100 (by decide)
      (by decide)).2 100 (by decide)).2).mpr (by decide)

/-- C6: an applicant in the static bypass list or in the exemption set is
always allowed, whatever the store contents, current time and cooldown
(hence no cooldown comparison happens: the last-application read never
occurs), and bypass-list membership is decided in memory with an empty
store-access trace. -/
theorem C6_exempt_overrides_cooldown (bypass : List Nat) (exempt : Finset Nat)
    (store : Store) (uid : Nat) (now cooldown : Int)
    (h : uid ∈ bypass ∨ uid ∈ exempt) :
    (apply_button bypass exempt store uid now cooldown).1 = GateResult.modalShown
    ∧ (∀ u, Event.readLastApp u ∉ (apply_button bypass exempt store uid now cooldown).2)
    ∧ (uid ∈ bypass → (apply_button bypass exempt store uid now cooldown).2 = []) := by
  by_cases hb : uid ∈ bypass
  · simp [apply_button, is_cooldown_exempt, hb]
  · have he : uid ∈ exempt := h.resolve_left hb
    refine ⟨?_, ?_, fun hc => absurd hc hb⟩
    · simp [apply_button, is_cooldown_exempt, hb, he]
    · intro u
      simp [apply_button, is_cooldown_exempt, hb, he]

/-- C6 witness: user 7 is in the bypass list; despite a latest application
at time 100 and an attempt at time 150 within a cooldown of 86400, the
gate allows, reads no last-application, and touches the store not at all. -/
theorem C6_exempt_overrides_cooldown_witness :
    (apply_button [7] {} [sampleRow] 7 150 86400).1 = GateResult.modalShown
    ∧ (∀ u, Event.readLastApp u ∉ (apply_button [7] {} [sampleRow] 7 150 86400).2)
    ∧ ((7 : Nat) ∈ [(7 : Nat)] →
        (apply_button [7] {} [sampleRow] 7 150 86400).2 = []) :=
  C6_exempt_overrides_cooldown [7] {} [sampleRow] 7 150 86400 (Or.inl (by decide))

/-- C8: the cooldown-exemption set has idempotent add and remove: adding a
present id or removing an absent id leaves the set unchanged, and add
(resp. remove) twice equals once; the entity is a finite set, hence
membership-only with no ordering. -/
theorem C8_cooldown_exempt_idempotent (s : Finset Nat) (uid : Nat) :
    (uid ∈ s → add_cooldown_exempt s uid = s)
    ∧ (uid ∉ s → remove_cooldown_exempt s uid = s)
    ∧ add_cooldown_exempt (add_cooldown_exempt s uid) uid = add_cooldown_exempt s uid
    ∧ remove_cooldown_exempt (remove_cooldown_exempt s uid) uid
        = remove_cooldown_exempt s uid := by
  refine ⟨fun h => Finset.insert_eq_self.mpr h, fun h => Finset.erase_eq_self.mpr h, ?_, ?_⟩
  · exact Finset.insert_idem uid s
  · exact Finset.erase_idem

/-- C8 witness: on the concrete set containing 1 and 2, adding the present
id 1 and removing the absent id 3 both leave the set unchanged. -/
theorem C8_cooldown_exempt_idempotent_witness :
    add_cooldown_exempt {1, 2} 1 = ({1, 2} : Finset Nat)
    ∧ remove_cooldown_exempt {1, 2} 3 = ({1, 2} : Finset Nat) :=
  ⟨(C8_cooldown_exempt_idempotent {1, 2} 1).1 (by decide),
   (C8_cooldown_exempt_idempotent {1, 2} 3).2.1 (by decide)⟩

/-- `ApplicationReviewView.approve` (bot.py lines 369-428): defer, then
write status approved with the reviewer id and a NULL reason, then fetch
the record; if absent, answer "Application not found!"; otherwise clear
the controls, recolour the review message, attempt the role grant, send
the audit embed (with a warning field when the grant failed) when the
audit channel resolves, attempt the DM (a failure being reported to the
audit channel), and acknowledge the reviewer with both outcomes. -/
def approve (store : Store) (application_id reviewer : Nat)
    (roleOk dmOk logCh : Bool) (now : Int) : Store × List Event :=
  (update_application_status store application_id Status.approved (some reviewer) none now,
    [Event.persistStatus application_id Status.approved (some reviewer) none,
     Event.fetchApp application_id] ++
    match get_application
        (update_application_status store application_id Status.approved
          (some reviewer) none now) application_id with
    | none => [Event.notFoundMsg]
    | some _ =>
        [Event.clearControls, Event.editReviewMessage Status.approved,
         Event.roleGrantAttempt roleOk]
        ++ (if logCh then [Event.auditApproved roleOk] else [])
        ++ [Event.dmApproved roleOk dmOk]
        ++ (if dmOk then [] else if logCh then [Event.dmFailReport] else [])
        ++ [Event.reviewerAck
              (if roleOk then "Application approved. Role assigned successfully."
               else "Application approved. Failed to assign role.")])

/-- `ApplicationReviewView.decline` together with `DeclineReasonModal`
(bot.py lines 431-505): the modal is sent and awaited.  If it is never
submitted (cancel or timeout) the handler returns with no further
effect.  If it is submitted, `DeclineReasonModal.on_submit` has already
written status declined with the reviewer id and the reason; a falsy
(empty) reason then makes the handler return early, otherwise it fetches
the record, clears the controls, recolours the message, sends the audit
embed with the reason when the audit channel resolves, attempts the DM
carrying the reason (a failure being reported to the audit channel), and
acknowledges the reviewer. -/
def decline (store : Store) (application_id reviewer : Nat)
    (modalReason : Option String) (dmOk logCh : Bool) (now : Int) :
    Store × List Event :=
  match modalReason with
  | none => (store, [Event.sendModal])
  | some reason =>
    (update_application_status store application_id Status.declined
       (some reviewer) (some reason) now,
      [Event.sendModal,
       Event.persistStatus application_id Status.declined (some reviewer) (some reason)] ++
      if reason = "" then []
      else
        [Event.fetchApp application_id] ++
        match get_application
            (update_application_status store application_id Status.declined
              (some reviewer) (some reason) now) application_id with
        | none => [Event.notFoundMsg]
        | some _ =>
            [Event.clearControls, Event.editReviewMessage Status.declined]
            ++ (if logCh then [Event.auditDeclined (some reason)] else [])
            ++ [Event.dmDeclined (some reason) dmOk]
            ++ (if dmOk then [] else if logCh then [Event.dmFailReport] else [])
            ++ [Event.reviewerAck "Application declined."])

/-- `ApplicationModal.on_submit` (bot.py lines 310-361): the age field is
parsed as an integer (a parse failure yields the invalid-age message);
an age below 18 sends the user-facing decline embed, then the automatic
decline audit embed when the audit channel resolves, and returns before
any record is created; otherwise the application row is inserted, the
user is acknowledged and the record is posted to the review channel. -/
def application_on_submit (store : Store) (uid : Nat)
    (user_name steam_hex real_name character_name : String)
    (ageParsed : Option Int) (logCh : Bool) (now : Int) (newId : Nat) :
    Store × List Event :=
  match ageParsed with
  | none => (store, [Event.invalidAgeMsg])
  | some age =>
    if age < 18 then
      (store,
        [Event.userDeclineMsg]
        ++ (if logCh then
              [Event.auditDeclined (some "Automatically declined for being under 18")]
            else []))
    else
      (create_application store newId uid user_name steam_hex real_name
         character_name age now,
        [Event.ackSubmitted, Event.sendToModChannel newId])

/-- Any row of the updated table that carries the updated id holds exactly
the written status, reason and moderator, whatever it held before. -/
theorem mem_update_fields {store : Store} {aid : Nat} {st : Status}
    {m : Option Nat} {rsn : Option String} {now : Int} {r : AppRow}
    (hr : r ∈ update_application_status store aid st m rsn now)
    (hid : r.id = aid) :
    r.status = st ∧ r.mod_reason = rsn ∧ r.moderator_id = m := by
  unfold update_application_status at hr
  rcases List.mem_map.mp hr with ⟨a, _, rfl⟩
  by_cases h : a.id = aid
  · simp [h]
  · simp [h] at hid

/-- Sample already-declined row used by concrete witnesses. -/
def sampleDeclinedRow : AppRow :=
  { sampleRow with status := Status.declined, mod_reason := some "prior reason",
                   moderator_id := some 5 }

/-- The sample declined row as rewritten by the unconditional approve
write at time 50 with moderator 9. -/
def updatedSampleRow : AppRow :=
  { sampleDeclinedRow with status := Status.approved, mod_reason := none,
                           moderator_id := some 9, updated_at := 50 }

/-- C3: with the audit channel available and the record present, the
approve transition performs, in this order: the status write with the
reviewer id, the fetch, the control removal and message edit, the role
grant attempt (whose failure does not abort anything that follows), one
audit record carrying the role-grant outcome, the DM attempt (whose
failure is reported to the audit channel rather than raised), and a
reviewer acknowledgment stating both the transition outcome and the
role-grant outcome. -/
theorem C3_approve_effect_order (store : Store) (aid reviewer : Nat)
    (roleOk dmOk : Bool) (now : Int)
    (happ : (get_application (update_application_status store aid
        Status.approved (some reviewer) none now) aid).isSome) :
    (approve store aid reviewer roleOk dmOk true now).2 =
      [Event.persistStatus aid Status.approved (some reviewer) none,
       Event.fetchApp aid, Event.clearControls,
       Event.editReviewMessage Status.approved, Event.roleGrantAttempt roleOk,
       Event.auditApproved roleOk, Event.dmApproved roleOk dmOk]
      ++ (if dmOk then [] else [Event.dmFailReport])
      ++ [Event.reviewerAck
            (if roleOk then "Application approved. Role assigned successfully."
             else "Application approved. Failed to assign role.")] := by
  obtain ⟨a, ha⟩ := Option.isSome_iff_exists.mp happ
  simp [approve, ha]

/-- C3 witness: approving the pending application 1 with a failing role
grant and a failing DM yields exactly the stated effect sequence, with
the audit record carrying the failed grant, the DM failure reported to
the audit channel, and the acknowledgment reporting both outcomes. -/
theorem C3_approve_effect_order_witness :
    (approve [sampleRow] 1 9 false false true 50).2 =
      [Event.persistStatus 1 Status.approved (some 9) none,
       Event.fetchApp 1, Event.clearControls,
       Event.editReviewMessage Status.approved, Event.roleGrantAttempt false,
       Event.auditApproved false, Event.dmApproved false false,
       Event.dmFailReport,
       Event.reviewerAck "Application approved. Failed to assign role."] := by
  simpa using C3_approve_effect_order [sampleRow] 1 9 false false 50 (by decide)

/-- C4: when the decline reason collection is abandoned (the modal is
never submitted), the handler performs no store write at all — the store
is returned unchanged, so any pending row stays pending — and its only
effect is having shown the modal: no audit entry, no control removal. -/
theorem C4_abandoned_decline_no_write (store : Store) (aid reviewer : Nat)
    (dmOk logCh : Bool) (now : Int) :
    (decline store aid reviewer none dmOk logCh now).1 = store
    ∧ (decline store aid reviewer none dmOk logCh now).2 = [Event.sendModal] :=
  ⟨rfl, rfl⟩

/-- C7: with the audit channel available, the record present and a
non-empty reason submitted, the decline transition persists status
declined with the reviewer id and the reason (visible on every row with
the application id), and performs in order: one audit record carrying
the reason, the DM attempt carrying the reason, the report of a DM
failure to the audit channel instead of an error, and the reviewer
acknowledgment. -/
theorem C7_decline_transition_effects (store : Store) (aid reviewer : Nat)
    (reason : String) (dmOk : Bool) (now : Int)
    (hreason : reason ≠ "")
    (happ : (get_application (update_application_status store aid
        Status.declined (some reviewer) (some reason) now) aid).isSome) :
    (decline store aid reviewer (some reason) dmOk true now).2 =
      [Event.sendModal,
       Event.persistStatus aid Status.declined (some reviewer) (some reason),
       Event.fetchApp aid, Event.clearControls,
       Event.editReviewMessage Status.declined,
       Event.auditDeclined (some reason), Event.dmDeclined (some reason) dmOk]
      ++ (if dmOk then [] else [Event.dmFailReport])
      ++ [Event.reviewerAck "Application declined."]
    ∧ ∀ r ∈ (decline store aid reviewer (some reason) dmOk true now).1,
        r.id = aid →
          r.status = Status.declined ∧ r.mod_reason = some reason
            ∧ r.moderator_id = some reviewer := by
  obtain ⟨a, ha⟩ := Option.isSome_iff_exists.mp happ
  constructor
  · simp [decline, hreason, ha]
  · intro r hr hid
    have h1 : (decline store aid reviewer (some reason) dmOk true now).1
        = update_application_status store aid Status.declined (some reviewer)
            (some reason) now := rfl
    rw [h1] at hr
    exact mem_update_fields hr hid

/-- C7 witness: declining the pending application 1 with reason "spam"
and a failing DM yields exactly the stated effect sequence, and the
stored row 1 is declined with reviewer 9 and reason "spam". -/
theorem C7_decline_transition_effects_witness :
    (decline [sampleRow] 1 9 (some "spam") false true 50).2 =
      [Event.sendModal,
       Event.persistStatus 1 Status.declined (some 9) (some "spam"),
       Event.fetchApp 1, Event.clearControls,
       Event.editReviewMessage Status.declined,
       Event.auditDeclined (some "spam"), Event.dmDeclined (some "spam") false,
       Event.dmFailReport, Event.reviewerAck "Application declined."]
    ∧ ∀ r ∈ (decline [sampleRow] 1 9 (some "spam") false true 50).1,
        r.id = 1 →
          r.status = Status.declined ∧ r.mod_reason = some "spam"
            ∧ r.moderator_id = some 9 := by
  have h := C7_decline_transition_effects [sampleRow] 1 9 "spam" false 50
    (by decide) (by decide)
  exact ⟨by simpa using h.1, h.2⟩

/-- C5: with the audit channel available, a submission whose age parses
below 18 creates no application record (the store is unchanged, so the
applicant never enters pending and never reaches a reviewer) and emits
exactly one user-facing decline message followed by exactly one
automatic-rejection audit entry. -/
theorem C5_age_gate_auto_decline (store : Store) (uid : Nat)
    (user_name steam_hex real_name character_name : String) (age : Int)
    (now : Int) (newId : Nat) (h : age < 18) :
    application_on_submit store uid user_name steam_hex real_name
        character_name (some age) true now newId
      = (store,
         [Event.userDeclineMsg,
          Event.auditDeclined (some "Automatically declined for being under 18")]) := by
  simp [application_on_submit, h]

/-- C5 witness: a submission with age 17 on an empty store leaves the
store empty and produces exactly the decline message and the automatic
rejection audit entry. -/
theorem C5_age_gate_auto_decline_witness :
    application_on_submit [] 7 "u" "s" "r" "c" (some 17) true 100 1
      = ([],
         [Event.userDeclineMsg,
          Event.auditDeclined (some "Automatically declined for being under 18")]) :=
  C5_age_gate_auto_decline [] 7 "u" "s" "r" "c" 17 100 1 (by decide)

/-- C9: `update_application_status` writes status, mod_reason and
moderator_id unconditionally — any row with the given id ends up with
exactly the written values, with no hypothesis on its previous status —
and the approve handler issues that write (with reason NULL, clearing a
stored decline reason) before it fetches the record, so the
"Application not found!" check runs only after the write: the returned
store is always the updated one, the first two trace events are the
write then the fetch, and even on a missing record the trace still
begins with the write. -/
theorem C9_unconditional_status_write (store : Store) (aid : Nat)
    (st : Status) (m : Option Nat) (rsn : Option String) (now : Int)
    (reviewer : Nat) (roleOk dmOk logCh : Bool) (r : AppRow)
    (hmem : r ∈ update_application_status store aid st m rsn now)
    (hid : r.id = aid) :
    (r.status = st ∧ r.mod_reason = rsn ∧ r.moderator_id = m)
    ∧ (approve store aid reviewer roleOk dmOk logCh now).1
        = update_application_status store aid Status.approved (some reviewer) none now
    ∧ (approve store aid reviewer roleOk dmOk logCh now).2.take 2
        = [Event.persistStatus aid Status.approved (some reviewer) none,
           Event.fetchApp aid]
    ∧ (get_application (update_application_status store aid Status.approved
          (some reviewer) none now) aid = none →
        (approve store aid reviewer roleOk dmOk logCh now).2
          = [Event.persistStatus aid Status.approved (some reviewer) none,
             Event.fetchApp aid, Event.notFoundMsg]) := by
  refine ⟨mem_update_fields hmem hid, rfl, rfl, fun hnone => ?_⟩
  simp [approve, hnone]

/-- C9 witness: updating application 1, currently declined with a stored
reason, to approved with moderator 9 and a NULL reason overwrites all
three fields with no precondition, and the approve trace starts with the
write followed by the fetch. -/
theorem C9_unconditional_status_write_witness :
    (updatedSampleRow.status = Status.approved
      ∧ updatedSampleRow.mod_reason = none
      ∧ updatedSampleRow.moderator_id = some 9)
    ∧ (approve [sampleDeclinedRow] 1 9 true true true 50).1
        = update_application_status [sampleDeclinedRow] 1 Status.approved (some 9) none 50
    ∧ (approve [sampleDeclinedRow] 1 9 true true true 50).2.take 2
        = [Event.persistStatus 1 Status.approved (some 9) none, Event.fetchApp 1]
    ∧ (get_application (update_application_status [sampleDeclinedRow] 1
          Status.approved (some 9) none 50) 1 = none →
        (approve [sampleDeclinedRow] 1 9 true true true 50).2
          = [Event.persistStatus 1 Status.approved (some 9) none,
             Event.fetchApp 1, Event.notFoundMsg]) :=
  C9_unconditional_status_write [sampleDeclinedRow] 1 Status.approved (some 9)
    none 50 9 true true true updatedSampleRow (by decide) (by decide)

/-- C1: evaluation of the approve handler at an application that is
already declined: the handler writes the status again (flipping the
declined record to approved), is not rejected — no not-found or
already-decided message appears — and re-runs the audit, the applicant
DM and the reviewer acknowledgment, contradicting the claimed
at-most-once transition guard. -/
theorem C1_second_decision_reruns_effects :
    (∃ r ∈ (approve [sampleDeclinedRow] 1 9 true true true 50).1,
        r.id = 1 ∧ r.status = Status.approved)
    ∧ Event.notFoundMsg ∉ (approve [sampleDeclinedRow] 1 9 true true true 50).2
    ∧ Event.auditApproved true ∈ (approve [sampleDeclinedRow] 1 9 true true true 50).2
    ∧ Event.dmApproved true true ∈ (approve [sampleDeclinedRow] 1 9 true true true 50).2
    ∧ Event.reviewerAck "Application approved. Role assigned successfully."
        ∈ (approve [sampleDeclinedRow] 1 9 true true true 50).2 := by
  decide

/-- Whitespace as recognised by Python str.strip on ASCII text: space,
tab, newline, carriage return, vertical tab and form feed. -/
def isPySpace (c : Char) : Bool :=
  c = ' ' || c = '\t' || c = '\n' || c = '\r' || c = Char.ofNat 11 || c = Char.ofNat 12

/-- Python str.strip: drop whitespace from both ends. -/
def pyStrip (s : List Char) : List Char :=
  ((s.dropWhile isPySpace).reverse.dropWhile isPySpace).reverse

/-- Python str.rfind(c, 0, stop) for a single character: the greatest
index i with i < stop at which c occurs, if any (-1 becomes none). -/
def pyRfind (s : List Char) (c : Char) (stop : Nat) : Option Nat :=
  (List.range stop).reverse.find? (fun i => s.get? i == some c)

/-- The split_at computation of one iteration of `split_message`
(bot.py lines 648-655): while more than max_length characters remain,
prefer the last newline before max_length, then the last space, then a
hard cut at max_length; otherwise take everything. -/
def computeSplitAt (content : List Char) (maxLength : Nat) : Nat :=
  if content.length > maxLength then
    match pyRfind content '\n' maxLength with
    | some i => i
    | none =>
      match pyRfind content ' ' maxLength with
      | some i => i
      | none => maxLength
  else maxLength

/-- The while loop of `split_message` (bot.py lines 647-660), with an
explicit fuel bound standing for the number of iterations: each round
strips the cut prefix into a chunk (dropped when empty) and continues on
the stripped remainder; none means the fuel was exhausted before the
remaining content emptied. -/
def splitLoop : Nat → List Char → Nat → Option (List (List Char))
  | _, [], _ => some []
  | 0, _ :: _, _ => none
  | fuel + 1, c :: t, maxLength =>
    match splitLoop fuel
        (pyStrip ((c :: t).drop (computeSplitAt (c :: t) maxLength))) maxLength with
    | none => none
    | some rs =>
        some (if pyStrip ((c :: t).take (computeSplitAt (c :: t) maxLength)) = [] then rs
              else pyStrip ((c :: t).take (computeSplitAt (c :: t) maxLength)) :: rs)

/-- `split_message` (bot.py lines 641-662): content at most max_length
long is returned whole as a single chunk; longer content runs the loop,
here given fuel equal to the content length (the termination theorem
shows that this always suffices when max_length is positive). -/
def split_message (content : List Char) (maxLength : Nat) :
    Option (List (List Char)) :=
  if content.length ≤ maxLength then some [content]
  else splitLoop content.length content maxLength

theorem length_dropWhile_le (p : Char → Bool) (l : List Char) :
    (l.dropWhile p).length ≤ l.length := by
  induction l with
  | nil => simp
  | cons a t ih =>
      by_cases h : p a
      · rw [List.dropWhile_cons_of_pos h]
        exact Nat.le_succ_of_le ih
      · rw [List.dropWhile_cons_of_neg h]

theorem pyStrip_length_le (s : List Char) : (pyStrip s).length ≤ s.length := by
  unfold pyStrip
  rw [List.length_reverse]
  calc ((s.dropWhile isPySpace).reverse.dropWhile isPySpace).length
      ≤ (s.dropWhile isPySpace).reverse.length :=
        length_dropWhile_le isPySpace (s.dropWhile isPySpace).reverse
    _ = (s.dropWhile isPySpace).length := List.length_reverse _
    _ ≤ s.length := length_dropWhile_le isPySpace s

theorem pyStrip_length_lt_of_head {c : Char} (t : List Char)
    (h : isPySpace c = true) : (pyStrip (c :: t)).length < (c :: t).length := by
  unfold pyStrip
  rw [List.dropWhile_cons_of_pos h, List.length_reverse]
  calc ((t.dropWhile isPySpace).reverse.dropWhile isPySpace).length
      ≤ (t.dropWhile isPySpace).reverse.length :=
        length_dropWhile_le isPySpace (t.dropWhile isPySpace).reverse
    _ = (t.dropWhile isPySpace).length := List.length_reverse _
    _ ≤ t.length := length_dropWhile_le isPySpace t
    _ < (c :: t).length := by simp

theorem pyRfind_lt {s : List Char} {c : Char} {stop i : Nat}
    (h : pyRfind s c stop = some i) : i < stop := by
  have hm := List.mem_of_find?_eq_some h
  rw [List.mem_reverse, List.mem_range] at hm
  exact hm

theorem pyRfind_get {s : List Char} {c : Char} {stop i : Nat}
    (h : pyRfind s c stop = some i) : s.get? i = some c := by
  have hp := List.find?_some h
  simpa using hp

theorem computeSplitAt_le (content : List Char) (maxLength : Nat) :
    computeSplitAt content maxLength ≤ maxLength := by
  unfold computeSplitAt
  by_cases h : content.length > maxLength
  · rw [if_pos h]
    cases h1 : pyRfind content '\n' maxLength with
    | some i => exact (pyRfind_lt h1).le
    | none =>
        cases h2 : pyRfind content ' ' maxLength with
        | some i => exact (pyRfind_lt h2).le
        | none => exact le_rfl
  · rw [if_neg h]

theorem computeSplitAt_zero {content : List Char} {maxLength : Nat}
    (hml : 1 ≤ maxLength) (hsa : computeSplitAt content maxLength = 0) :
    ∃ c t, content = c :: t ∧ isPySpace c = true := by
  unfold computeSplitAt at hsa
  by_cases h : content.length > maxLength
  · rw [if_pos h] at hsa
    cases h1 : pyRfind content '\n' maxLength with
    | some i =>
        rw [h1] at hsa
        have hg : content.get? 0 = some '\n' := by rw [← hsa]; exact pyRfind_get h1
        cases content with
        | nil => simp at hg
        | cons a t =>
            refine ⟨a, t, rfl, ?_⟩
            simp at hg
            rw [hg]
            decide
    | none =>
        rw [h1] at hsa
        cases h2 : pyRfind content ' ' maxLength with
        | some i =>
            rw [h2] at hsa
            have hg : content.get? 0 = some ' ' := by rw [← hsa]; exact pyRfind_get h2
            cases content with
            | nil => simp at hg
            | cons a t =>
                refine ⟨a, t, rfl, ?_⟩
                simp at hg
                rw [hg]
                decide
        | none =>
            rw [h2] at hsa
            have hz : maxLength = 0 := hsa
            omega
  · rw [if_neg h] at hsa
    omega

theorem rest_length_lt (content : List Char) (maxLength : Nat)
    (hml : 1 ≤ maxLength) (hne : content ≠ []) :
    (pyStrip (content.drop (computeSplitAt content maxLength))).length
      < content.length := by
  cases hsa : computeSplitAt content maxLength with
  | zero =>
      obtain ⟨c, t, hct, hsp⟩ := computeSplitAt_zero hml hsa
      subst hct
      simpa using pyStrip_length_lt_of_head t hsp
  | succ n =>
      have h1 : (content.drop (n + 1)).length < content.length := by
        rw [List.length_drop]
        cases content with
        | nil => exact absurd rfl hne
        | cons a t =>
            simp only [List.length_cons]
            omega
      exact lt_of_le_of_lt (pyStrip_length_le _) h1

theorem splitLoop_isSome (maxLength : Nat) (hml : 1 ≤ maxLength) :
    ∀ fuel content, content.length ≤ fuel →
      (splitLoop fuel content maxLength).isSome := by
  intro fuel
  induction fuel with
  | zero =>
      intro content h
      have : content = [] := List.eq_nil_of_length_eq_zero (Nat.le_zero.mp h)
      subst this
      simp [splitLoop]
  | succ n ih =>
      intro content h
      cases content with
      | nil => simp [splitLoop]
      | cons a t =>
          have hrest :
              (pyStrip ((a :: t).drop (computeSplitAt (a :: t) maxLength))).length
                < (a :: t).length :=
            rest_length_lt (a :: t) maxLength hml (by simp)
          have hfuel :
              (pyStrip ((a :: t).drop (computeSplitAt (a :: t) maxLength))).length
                ≤ n := by
            have := h
            simp only [List.length_cons] at this
            omega
          obtain ⟨rs, hrs⟩ := Option.isSome_iff_exists.mp (ih _ hfuel)
          rw [splitLoop, hrs]
          simp

theorem splitLoop_chunks (maxLength : Nat) :
    ∀ fuel content rs, splitLoop fuel content maxLength = some rs →
      ∀ ch ∈ rs, ch.length ≤ maxLength ∧ ch ≠ [] := by
  intro fuel
  induction fuel with
  | zero =>
      intro content rs h ch hch
      cases content with
      | nil =>
          simp [splitLoop] at h
          subst h
          simp at hch
      | cons a t => simp [splitLoop] at h
  | succ n ih =>
      intro content rs h ch hch
      cases content with
      | nil =>
          simp [splitLoop] at h
          subst h
          simp at hch
      | cons a t =>
          rw [splitLoop] at h
          cases hinner : splitLoop n
              (pyStrip ((a :: t).drop (computeSplitAt (a :: t) maxLength)))
              maxLength with
          | none => rw [hinner] at h; simp at h
          | some rs' =>
              rw [hinner] at h
              simp only [Option.some.injEq] at h
              subst h
              by_cases hemp :
                  pyStrip ((a :: t).take (computeSplitAt (a :: t) maxLength)) = []
              · rw [if_pos hemp] at hch
                exact ih _ _ hinner ch hch
              · rw [if_neg hemp] at hch
                cases hch with
                | head =>
                    refine ⟨?_, hemp⟩
                    calc (pyStrip ((a :: t).take
                            (computeSplitAt (a :: t) maxLength))).length
                        ≤ ((a :: t).take (computeSplitAt (a :: t) maxLength)).length :=
                          pyStrip_length_le _
                      _ ≤ computeSplitAt (a :: t) maxLength := by
                          rw [List.length_take]
                          exact Nat.min_le_left _ _
                      _ ≤ maxLength := computeSplitAt_le (a :: t) maxLength
                | tail _ hch => exact ih _ _ hinner ch hch

/-- C10: for positive max_length, `split_message` terminates — fuel equal
to the content length always suffices, so the loop yields a result — and
every returned chunk has length at most max_length; when the content is
strictly longer than max_length every chunk is moreover non-empty, and
empty content yields the single empty chunk. -/
theorem C10_split_message_bounds (content : List Char) (maxLength : Nat)
    (hml : 1 ≤ maxLength) :
    (∃ rs, split_message content maxLength = some rs
      ∧ (∀ ch ∈ rs, ch.length ≤ maxLength)
      ∧ (maxLength < content.length → ∀ ch ∈ rs, ch ≠ []))
    ∧ split_message [] maxLength = some [[]] := by
  constructor
  · by_cases h : content.length ≤ maxLength
    · refine ⟨[content], by simp [split_message, h], ?_, ?_⟩
      · intro ch hch
        simp at hch
        subst hch
        exact h
      · intro hlt
        omega
    · have hs := splitLoop_isSome maxLength hml content.length content le_rfl
      obtain ⟨rs, hrs⟩ := Option.isSome_iff_exists.mp hs
      refine ⟨rs, by simp [split_message, h, hrs], ?_, ?_⟩
      · intro ch hch
        exact (splitLoop_chunks maxLength content.length content rs hrs ch hch).1
      · intro _ ch hch
        exact (splitLoop_chunks maxLength content.length content rs hrs ch hch).2
  · simp [split_message]

/-- C10 witness: splitting the eleven-character text "hello world" at
max_length 5 succeeds with all chunks within bounds and non-empty, and
splitting the empty text yields the single empty chunk. -/
theorem C10_split_message_bounds_witness :
    (∃ rs, split_message ("hello world".toList) 5 = some rs
      ∧ (∀ ch ∈ rs, ch.length ≤ 5)
      ∧ (5 < ("hello world".toList).length → ∀ ch ∈ rs, ch ≠ []))
    ∧ split_message [] 5 = some [[]] :=
  C10_split_message_bounds ("hello world".toList) 5 (by decide)

end AllowlistBot
